import Mathlib

/-!
Shallow embedding of `src/backend/main.py` (spreadsheet ingestion service).

Cells of a data frame are modelled by `Val`; pandas `NaN` is `Val.nan`.
Machinery that the source delegates to pandas/NumPy is modelled at the
level the source uses it: column indexes (string columns vs the numeric
`RangeIndex` of an empty frame), `fillna`, `to_numeric(errors := coerce)`
on the decimal fragment of Python number literals, and `np.where(col < 10)`.
Firestore is modelled as an explicit `Store`; every remote effect of the
ingestion job (document creation, blob download, parsing, batch commit,
status updates, push send) is driven by an `IngestEnv` oracle that says
whether the call succeeds and with what data, mirroring the `try/except`
structure of `process_file_task` exactly.
-/

instance exceptDecEq {ε α : Type} [DecidableEq ε] [DecidableEq α] :
    DecidableEq (Except ε α)
  | .error a, .error b =>
      if h : a = b then .isTrue (by rw [h]) else .isFalse (by intro c; cases c; exact h rfl)
  | .error _, .ok _ => .isFalse (by intro c; cases c)
  | .ok _, .error _ => .isFalse (by intro c; cases c)
  | .ok a, .ok b =>
      if h : a = b then .isTrue (by rw [h]) else .isFalse (by intro c; cases c; exact h rfl)

/-- A cell value: string, rational number, boolean, or pandas `NaN`. -/
inductive Val where
  | str  (s : String)
  | num  (q : ℚ)
  | bool (b : Bool)
  | nan
deriving DecidableEq, Repr

/-- A row as parsed from a spreadsheet / produced by `to_dict(orient := records)`:
an association list from field name to cell value. -/
abbrev Row := List (String × Val)

/-- Strip whitespace from both ends of a character list (Python `strip`). -/
def trimWs (cs : List Char) : List Char :=
  ((cs.dropWhile (·.isWhitespace)).reverse.dropWhile (·.isWhitespace)).reverse

/-- `True` iff the character list is a nonempty run of ASCII digits. -/
def isDigitsL (cs : List Char) : Bool := !cs.isEmpty && cs.all (·.isDigit)

/-- Value of a digit run read in base 10. -/
def digitsToNat (cs : List Char) : Nat :=
  cs.foldl (fun n c => n * 10 + (c.toNat - 48)) 0

/-- Split a character list at every dot (Python `"x".split(".")` shape). -/
def splitOnDot : List Char → List (List Char)
  | [] => [[]]
  | c :: rest =>
    if c = '.' then [] :: splitOnDot rest
    else
      match splitOnDot rest with
      | []      => [[c]]
      | g :: gs => (c :: g) :: gs

/-- Value of an unsigned decimal literal: `"12"`, `"12.5"`, `".5"`, `"12."`.
Models the fragment of Python numeric parsing (used by
`pd.to_numeric`) that covers plain decimal strings; exponent, `inf` and
`nan` forms are outside the fragment and simply fail here. -/
def parseUnsigned (cs : List Char) : Option ℚ :=
  match splitOnDot cs with
  | [a] => if isDigitsL a then some (mkRat (digitsToNat a) 1) else none
  | [a, b] =>
      if (isDigitsL a || a.isEmpty) && (isDigitsL b || b.isEmpty)
          && !(a.isEmpty && b.isEmpty) then
        some (mkRat (digitsToNat a * 10 ^ b.length + digitsToNat b) (10 ^ b.length))
      else none
  | _ => none

/-- Signed decimal literal, ignoring surrounding whitespace. -/
def parseDec (s : String) : Option ℚ :=
  match trimWs s.data with
  | '-' :: rest => (parseUnsigned rest).map (fun q => -q)
  | '+' :: rest => parseUnsigned rest
  | t           => parseUnsigned t

/-- `pd.to_numeric(v, errors := coerce)` on one cell: numbers pass through,
booleans become 0/1, strings are parsed (failure gives `NaN`), `NaN` stays. -/
def toNumericVal : Val → Val
  | .num q  => .num q
  | .bool b => .num (if b then 1 else 0)
  | .str s  => match parseDec s with
               | some q => .num q
               | none   => .nan
  | .nan    => .nan

/-- `fillna('')` on one cell. -/
def fillVal : Val → Val
  | .nan => .str ""
  | v    => v

/-- `.fillna(0)` on one (post-`to_numeric`) cell. -/
def fillZero : Val → Val
  | .nan => .num 0
  | v    => v

/-- One cell of the `amount` column after
`pd.to_numeric(col, errors := coerce).fillna(0)`. -/
def coerceAmount (v : Val) : Val := fillZero (toNumericVal v)

/-- `q < 10` by cross-multiplication on the reduced fraction
(kernel-computable form of the order on `ℚ`; see `ratLt10_iff`). -/
def ratLt10 (q : ℚ) : Bool := decide (q.num < 10 * (q.den : ℤ))

/-- One cell of the `low_stock_alert` column:
`np.where(pd.to_numeric(stock, errors := coerce) < 10, True, False)`.
`NaN` compares `False` against 10, as in NumPy. -/
def lowStock (v : Val) : Bool :=
  match toNumericVal v with
  | .num q => ratLt10 q
  | _      => false

/-- The column index of a DataFrame: string column names, or the numeric
`RangeIndex` that pandas gives a frame built from no keyed data. -/
inductive ColIndex where
  | range (n : Nat)
  | names (cs : List String)
deriving DecidableEq, Repr

/-- A pandas DataFrame at the granularity the source uses: a column index
and rows of cells aligned with it. -/
structure Frame where
  colIx : ColIndex
  rows  : List (List Val)
deriving DecidableEq, Repr

/-- Append `k` to the key list if it is not already present
(first-appearance order, as `pd.DataFrame(list_of_dicts)` collects columns). -/
def insertKey (acc : List String) (k : String) : List String :=
  if k ∈ acc then acc else acc ++ [k]

/-- Columns of `pd.DataFrame(raw)`: union of the dict keys in order of first
appearance. -/
def collectKeys (raw : List Row) : List String :=
  raw.foldl (fun acc r => r.foldl (fun a kv => insertKey a kv.1) acc) []

/-- `pd.DataFrame(raw)`: when no keys exist (in particular `raw = []`) the
column index is a numeric `RangeIndex`; otherwise the string keys, and each
row holds the cell for each column (`NaN` where the dict lacks the key). -/
def mkFrame (raw : List Row) : Frame :=
  let ks := collectKeys raw
  if ks.isEmpty then
    { colIx := .range 0, rows := raw.map (fun _ => []) }
  else
    { colIx := .names ks
      rows  := raw.map (fun r => ks.map (fun k => (r.lookup k).getD .nan)) }

/-- Header normalization of one name: `strip`, `lower`, spaces to underscores. -/
def normalizeHeader (h : String) : String :=
  ⟨((trimWs h.data).map Char.toLower).map (fun c => if c = ' ' then '_' else c)⟩

namespace SpreadsheetLogic

/-- `clean_headers`: `df.columns.str.strip().str.lower().str.replace(' ', '_')`.
On a numeric `RangeIndex` (empty frame) the `.str` accessor raises. -/
def clean_headers (f : Frame) : Except String Frame :=
  match f.colIx with
  | .range _   => .error "AttributeError: Can only use .str accessor with string values!"
  | .names cs  => .ok { f with colIx := .names (cs.map normalizeHeader) }

/-- Replace column `j` of every row by `g` of its cell. -/
def mapColAt (f : Frame) (j : Nat) (g : Val → Val) : Frame :=
  { f with rows := f.rows.map (fun row => row.set j (g (row.getD j .nan))) }

/-- `apply_business_rules`: `fillna('')`, then the category-specific rule.
`financial` coerces an existing `amount` column (failures become 0);
`inventory` derives `low_stock_alert` from an existing `stock` column
(assignment overwrites the column when it already exists, else appends). -/
def apply_business_rules (f : Frame) (category : String) : Frame :=
  let f1 : Frame := { f with rows := f.rows.map (fun row => row.map fillVal) }
  match f1.colIx with
  | .range _ => f1
  | .names cs =>
    if category = "financial" then
      if "amount" ∈ cs then mapColAt f1 (cs.findIdx (· = "amount")) coerceAmount
      else f1
    else if category = "inventory" then
      if "stock" ∈ cs then
        let j := cs.findIdx (· = "stock")
        let alerts := f1.rows.map (fun row => Val.bool (lowStock (row.getD j .nan)))
        if "low_stock_alert" ∈ cs then
          let k := cs.findIdx (· = "low_stock_alert")
          { f1 with rows := (f1.rows.zip alerts).map (fun p => p.1.set k p.2) }
        else
          { colIx := .names (cs ++ ["low_stock_alert"])
            rows  := (f1.rows.zip alerts).map (fun p => p.1 ++ [p.2]) }
      else f1
    else f1

/-- `to_dict(orient := records)`: one association list per row. Only reached
on frames with string columns (`clean_headers` raises first otherwise). -/
def toRecords (f : Frame) : List Row :=
  match f.colIx with
  | .range _  => f.rows.map (fun _ => [])
  | .names cs => f.rows.map (fun row => cs.zip row)

/-- `process(raw_data, category)`: build the frame, clean headers (which can
raise), apply the rules, return records. -/
def process (raw : List Row) (category : String) : Except String (List Row) :=
  match clean_headers (mkFrame raw) with
  | .error e => .error e
  | .ok f    => .ok (toRecords (apply_business_rules f category))

end SpreadsheetLogic

example :
    SpreadsheetLogic.process
      [[("Amount", Val.str "12.5")], [("Amount", Val.str "bad")]] "financial"
      = .ok [[("amount", Val.num (mkRat 25 2))], [("amount", Val.num (mkRat 0 1))]] := by decide

example :
    SpreadsheetLogic.process
      [[("stock", Val.str "3")], [("stock", Val.str "50")]] "inventory"
      = .ok [[("stock", Val.str "3"), ("low_stock_alert", Val.bool true)],
             [("stock", Val.str "50"), ("low_stock_alert", Val.bool false)]] := by decide

/-! ## Data model: requests, tasks, published records, the Firestore store -/

/-- Body of a `/convert` request (`ProcessRequest` in the source). -/
structure ProcessRequest where
  filePath   : String
  fileName   : String
  userId     : String
  category   : String
  fileType   : String
  customName : Option String
  expiryDate : Option String
deriving DecidableEq, Repr

/-- Body of a `/delete-cloud` request (`DeleteRequest` in the source). -/
structure DeleteRequest where
  taskId : String
  userId : String
deriving DecidableEq, Repr

/-- A `processing_tasks` document. Server timestamps are out of the model. -/
structure ProcessingTask where
  fileName         : String
  uploadedBy       : String
  status           : String
  category         : String
  type             : String
  notificationSent : Bool
  recordCount      : Option Nat
  errorMessage     : Option String
  customName       : Option (Option String)
  expiryDate       : Option String
deriving DecidableEq, Repr

/-- An `app_data` document: the transformed row's fields plus the
provenance (`sourceFileId`), category and display name the publisher adds. -/
structure PublishedRecord where
  fields       : Row
  sourceFileId : String
  category     : String
  customName   : Option String
deriving DecidableEq, Repr

/-- The durable store: `processing_tasks` (keyed by document id) and
`app_data`. -/
structure Store where
  tasks   : List (String × ProcessingTask)
  appData : List PublishedRecord
deriving DecidableEq, Repr

/-- Look a task up by document id. -/
def lookupTask : List (String × ProcessingTask) → String → Option ProcessingTask
  | [], _ => none
  | (k, t) :: rest, id => if k = id then some t else lookupTask rest id

/-- Drop every entry with the given document id. -/
def removeTask : List (String × ProcessingTask) → String → List (String × ProcessingTask)
  | [], _ => []
  | (k, t) :: rest, id =>
    if k = id then removeTask rest id else (k, t) :: removeTask rest id

/-- `document(id).set(data)`: write the document, replacing any previous one. -/
def setTask (s : Store) (id : String) (t : ProcessingTask) : Store :=
  { s with tasks := (id, t) :: removeTask s.tasks id }

/-- Batch commit of `app_data` writes (each publish creates new documents). -/
def pushRecords (s : Store) (recs : List PublishedRecord) : Store :=
  { s with appData := s.appData ++ recs }

/-- Drop every `app_data` document whose provenance is the given task id. -/
def deleteRecords : List PublishedRecord → String → List PublishedRecord
  | [], _ => []
  | r :: rest, id =>
    if r.sourceFileId = id then deleteRecords rest id else r :: deleteRecords rest id

/-- Status field of the task document with the given id, if present. -/
def taskStatus (s : Store) (id : String) : Option String :=
  (lookupTask s.tasks id).map (·.status)

/-- `errorMessage` field of the task document with the given id. -/
def taskErrMsg (s : Store) (id : String) : Option String :=
  (lookupTask s.tasks id).bind (·.errorMessage)

/-- `recordCount` field of the task document with the given id. -/
def taskRecordCount (s : Store) (id : String) : Option Nat :=
  (lookupTask s.tasks id).bind (·.recordCount)

/-- `notificationSent` field of the task document with the given id. -/
def taskNotifSent (s : Store) (id : String) : Option Bool :=
  (lookupTask s.tasks id).map (·.notificationSent)

/-! ## Ingestion orchestrator (`process_file_task`) -/

/-- The scratch path of a job: `f"/tmp/{request.fileName}"`. -/
def tempPath (req : ProcessRequest) : String :=
  "/tmp/" ++ req.fileName

/-- The `task_data` dict built at step A: status `processing`, notification
flag down; `customName` only for `side` files, `expiryDate` only for `side`
files when non-empty (Python truthiness of the optional string). -/
def mkTaskData (req : ProcessRequest) : ProcessingTask :=
  { fileName         := req.fileName
    uploadedBy       := req.userId
    status           := "processing"
    category         := req.category
    type             := req.fileType
    notificationSent := false
    recordCount      := none
    errorMessage     := none
    customName       := if req.fileType = "side" then some req.customName else none
    expiryDate       :=
      if req.fileType = "side" then
        match req.expiryDate with
        | some d => if d = "" then none else some d
        | none   => none
      else none }

/-- One `app_data` document written by the bulk publish loop. -/
def mkPublished (item : Row) (taskId : String) (req : ProcessRequest) : PublishedRecord :=
  { fields       := item
    sourceFileId := taskId
    category     := req.category
    customName   := req.customName }

/-- Oracle for every remote effect of one ingestion job: the id Firestore
allocates, and whether each remote call succeeds (with the error text the
raised exception would stringify to, and the parse result of the blob). -/
structure IngestEnv where
  taskId      : String
  createOk    : Bool
  createErr   : String
  fetchOk     : Bool
  fetchErr    : String
  fetchLeft   : Bool
  parseResult : Except String (List Row)
  publishOk   : Bool
  publishErr  : String
  completeOk  : Bool
  completeErr : String
  errUpdateOk : Bool
  notifyOk    : Bool
deriving DecidableEq, Repr

/-- In-flight state of one ingestion job: current store, the documents the
job's batch committed so far, the status values written to the task (plus a
marker for the notification attempt), and whether the scratch file exists. -/
structure Mid where
  store     : Store
  published : List PublishedRecord
  events    : List String
  scratch   : Bool
deriving DecidableEq, Repr

/-- Outcome of one ingestion job after the `finally` block: final store,
whether an exception escaped `process_file_task`, the records the job
published, the event trail, and whether the scratch file still exists. -/
structure RunResult where
  store         : Store
  escaped       : Bool
  published     : List PublishedRecord
  events        : List String
  scratchExists : Bool
deriving DecidableEq, Repr

/-- The `finally` block: `if os.path.exists(temp_path): os.remove(temp_path)`. -/
def cleanupFile (b : Bool) : Bool := if b then false else b

/-- The `except` handler: `task_ref` is always bound by the time anything can
raise, so it updates the task to `error` with the stringified exception;
that update itself raises when the document does not exist (the `set`
failed) or when the store rejects it, and then the exception escapes. -/
def errorFinish (env : IngestEnv) (m : Mid) (msg : String) : RunResult :=
  match lookupTask m.store.tasks env.taskId with
  | none =>
      { store := m.store, escaped := true, published := m.published
        events := m.events, scratchExists := cleanupFile m.scratch }
  | some t =>
      if env.errUpdateOk then
        { store := setTask m.store env.taskId
            { t with status := "error", errorMessage := some msg }
          escaped := false, published := m.published
          events := m.events ++ ["error"], scratchExists := cleanupFile m.scratch }
      else
        { store := m.store, escaped := true, published := m.published
          events := m.events, scratchExists := cleanupFile m.scratch }

/-- Normal exit: no exception, run the `finally` block. -/
def okFinish (m : Mid) : RunResult :=
  { store := m.store, escaped := false, published := m.published
    events := m.events, scratchExists := cleanupFile m.scratch }

/-- `process_file_task`, step by step: create the task (A), download the
blob (B), parse and transform (C), batch-publish the first 400 rows (D),
update the task to `completed` with the full `recordCount` (E), attempt the
push notification with its failure swallowed (F); any exception in A–E goes
to the `except` handler, and the `finally` cleanup always runs. -/
def runProcessFileTask (env : IngestEnv) (req : ProcessRequest) (s0 : Store) : RunResult :=
  let m0 : Mid := ⟨s0, [], [], false⟩
  if env.createOk then
    let s1 := setTask s0 env.taskId (mkTaskData req)
    let m1 : Mid := ⟨s1, [], ["processing"], false⟩
    if env.fetchOk then
      let m2 : Mid := { m1 with scratch := true }
      match env.parseResult with
      | .error e => errorFinish env m2 e
      | .ok raw =>
        match SpreadsheetLogic.process raw req.category with
        | .error e => errorFinish env m2 e
        | .ok processed =>
          let recs := (processed.take 400).map (fun item => mkPublished item env.taskId req)
          if env.publishOk then
            let m3 : Mid := { m2 with store := pushRecords m2.store recs, published := recs }
            if env.completeOk then
              match lookupTask m3.store.tasks env.taskId with
              | none => errorFinish env m3 "404 No document to update"
              | some t =>
                let m4 : Mid := { m3 with
                  store := setTask m3.store env.taskId
                    { t with status := "completed"
                             recordCount := some processed.length
                             notificationSent := true }
                  events := m3.events ++ ["completed"] }
                okFinish { m4 with
                  events := m4.events ++ [if env.notifyOk then "notify" else "notify_failed"] }
            else errorFinish env m3 env.completeErr
          else errorFinish env m2 env.publishErr
    else errorFinish env { m1 with scratch := env.fetchLeft } env.fetchErr
  else errorFinish env m0 env.createErr

/-- The status values an ingestion run wrote to its task, in order. -/
def statusEvents (l : List String) : List String :=
  l.filter (fun e => e == "processing" || e == "completed" || e == "error")

/-! ## Reconciliation orchestrator (`delete_file_task`) -/

/-- `delete_file_task`: look the task up (absent is a no-op), delete every
`app_data` document whose `sourceFileId` is the task id, then delete the
task document. No step fails in the model, matching the claim's
success-path reading; failures are only logged in the source. -/
def delete_file_task (s : Store) (req : DeleteRequest) : Store :=
  match lookupTask s.tasks req.taskId with
  | none   => s
  | some _ =>
      { tasks   := removeTask s.tasks req.taskId
        appData := deleteRecords s.appData req.taskId }

/-! ## Health probe -/

/-- `GET /health`: the handler body is the constant `{"status": "ready"}`. -/
def health_check : List (String × String) := [("status", "ready")]

/-! ## Derived predicates used by the statements -/

/-- Every record in the list carries the given provenance id. -/
def provOk (l : List PublishedRecord) (id : String) : Prop :=
  ∀ rec ∈ l, rec.sourceFileId = id

/-- No record in the list carries the given provenance id. -/
def noProv (l : List PublishedRecord) (id : String) : Prop :=
  ∀ rec ∈ l, rec.sourceFileId ≠ id

/-- Reachable-state invariant used for reconciliation: published records
never outlive their task except through reconciliation itself, so when the
task document is absent no record carries its id. -/
def orphanFree (s : Store) (id : String) : Prop :=
  lookupTask s.tasks id = none → noProv s.appData id

instance (l : List PublishedRecord) (id : String) : Decidable (provOk l id) := by
  unfold provOk; infer_instance

instance (l : List PublishedRecord) (id : String) : Decidable (noProv l id) := by
  unfold noProv; infer_instance

instance (s : Store) (id : String) : Decidable (orphanFree s id) := by
  unfold orphanFree; infer_instance

/-- Index of the `stock` column in the cleaned header list. -/
def stockIdx (raw : List Row) : Nat :=
  ((collectKeys raw).map normalizeHeader).findIdx (· = "stock")

/-- The `stock` cell the inventory rule reads for row `i`: the frame cell at
the `stock` column after `fillna('')`. -/
def stockCell (raw : List Row) (i : Nat) : Val :=
  fillVal (((mkFrame raw).rows.getD i []).getD (stockIdx raw) .nan)

/-! ## Concrete instances for witnesses and counterexamples -/

/-- A `/convert` request for a main financial CSV. -/
def reqFin : ProcessRequest :=
  ⟨"uploads/data.csv", "data.csv", "alice", "financial", "main", none, none⟩

/-- An environment where every remote call succeeds. -/
def envHappy : IngestEnv :=
  { taskId := "T1", createOk := true, createErr := "", fetchOk := true, fetchErr := ""
    fetchLeft := false
    parseResult := .ok [[("Amount", Val.str "12.5")], [("Amount", Val.str "bad")]]
    publishOk := true, publishErr := "", completeOk := true, completeErr := ""
    errUpdateOk := true, notifyOk := true }

/-- The happy environment except that the blob download raises. -/
def envFetchFail : IngestEnv :=
  { envHappy with fetchOk := false, fetchErr := "404 blob not found", fetchLeft := true }

/-- The happy environment except that the push send raises. -/
def envNotifyFail : IngestEnv := { envHappy with notifyOk := false }

/-- An inventory request. -/
def reqInv : ProcessRequest :=
  ⟨"uploads/stock.csv", "stock.csv", "bob", "inventory", "main", none, none⟩

/-- A parse result with 401 identical rows, for the truncation counterexample. -/
def envBig : IngestEnv :=
  { envHappy with taskId := "TBIG"
                  parseResult := .ok (List.replicate 401 [("a", Val.str "x")]) }

/-- The 401-row request (category without special rules). -/
def reqBig : ProcessRequest :=
  ⟨"uploads/big.csv", "big.csv", "carol", "other", "main", none, none⟩

/-- Two distinct requests that upload a file of the same name. -/
def reqSameName1 : ProcessRequest :=
  ⟨"uploads/a/report.csv", "report.csv", "alice", "financial", "main", none, none⟩

/-- Second request with the same file name but different path, user, category. -/
def reqSameName2 : ProcessRequest :=
  ⟨"uploads/b/report.csv", "report.csv", "bob", "inventory", "main", none, none⟩

/-- A completed task document, for the reconciliation witness. -/
def doneTaskW : ProcessingTask :=
  ⟨"data.csv", "alice", "completed", "financial", "main", true, some 2, none, none, none⟩

/-- A store holding one task and three records, two of them provenanced to it. -/
def storeW : Store :=
  { tasks := [("T1", doneTaskW)]
    appData :=
      [ ⟨[("amount", Val.num (mkRat 25 2))], "T1", "financial", none⟩
      , ⟨[("amount", Val.num (mkRat 0 1))], "T1", "financial", none⟩
      , ⟨[("stock", Val.str "3")], "T2", "inventory", none⟩ ] }


/-- The inventory rows of the claim: stock 3 and stock 50. -/
def rawInv : List Row := [[("stock", Val.str "3")], [("stock", Val.str "50")]]

/-- Transform output on `rawInv`: `low_stock_alert` true then false. -/
def rsInv : List Row :=
  [[("stock", Val.str "3"), ("low_stock_alert", Val.bool true)],
   [("stock", Val.str "50"), ("low_stock_alert", Val.bool false)]]

/-! ## Helper lemmas -/

theorem lookupTask_setTask (s : Store) (id : String) (t : ProcessingTask) :
    lookupTask (setTask s id t).tasks id = some t := by
  simp [setTask, lookupTask]

theorem lookupTask_removeTask (l : List (String × ProcessingTask)) (id : String) :
    lookupTask (removeTask l id) id = none := by
  induction l with
  | nil => rfl
  | cons p rest ih =>
      by_cases h : p.1 = id
      · simpa [removeTask, h] using ih
      · simpa [removeTask, lookupTask, h] using ih

theorem noProv_deleteRecords (l : List PublishedRecord) (id : String) :
    noProv (deleteRecords l id) id := by
  induction l with
  | nil => intro r hr; cases hr
  | cons p rest ih =>
      intro r hr
      by_cases h : p.sourceFileId = id
      · exact ih r (by simpa [deleteRecords, h] using hr)
      · rcases (by simpa [deleteRecords, h] using hr : r = p ∨ r ∈ deleteRecords rest id) with
          h1 | h1
        · simpa [h1] using h
        · exact ih r h1

theorem cleanupFile_eq_false (b : Bool) : cleanupFile b = false := by
  cases b <;> rfl

theorem ratLt10_iff (q : ℚ) : ratLt10 q = true ↔ q < 10 := by
  rw [ratLt10, decide_eq_true_eq]
  have hd : (0 : ℚ) < (q.den : ℚ) := by exact_mod_cast q.den_pos
  constructor
  · intro h
    calc q = (q.num : ℚ) / (q.den : ℚ) := (Rat.num_div_den q).symm
      _ < 10 := by rw [div_lt_iff₀ hd]; exact_mod_cast h
  · intro h
    have h2 : (q.num : ℚ) / (q.den : ℚ) < 10 := by rw [Rat.num_div_den]; exact h
    rw [div_lt_iff₀ hd] at h2
    exact_mod_cast h2

/-! ## Claims -/

/-- C10: the health probe is a constant function: the `/health` handler
returns `{"status": "ready"}` unconditionally (its body reads no state), so
it can never report not-ready. -/
theorem health_check_constant : health_check = [("status", "ready")] := rfl

/-- C9: the Transform Engine is not total on the empty input: `process` on an
empty row sequence raises (the column index of the empty frame is the
numeric `RangeIndex`, on which the `.str` accessor fails) for every
category, instead of returning an empty sequence. -/
theorem process_empty_raises (category : String) :
    SpreadsheetLogic.process [] category
      = .error "AttributeError: Can only use .str accessor with string values!" := rfl

/-- C4: on `[{"Amount": "12.5"}, {"Amount": "bad"}]` with category
`financial`, the Transform Engine normalizes the header `Amount` to
`amount` and coerces the values, turning the unparseable `"bad"` into `0`:
the result is `[{"amount": 12.5}, {"amount": 0}]`. -/
theorem transform_financial_example :
    SpreadsheetLogic.process
      [[("Amount", Val.str "12.5")], [("Amount", Val.str "bad")]] "financial"
      = .ok [[("amount", Val.num 12.5)], [("amount", Val.num 0)]] := by
  rw [show (12.5 : ℚ) = mkRat 25 2 from by rw [Rat.mkRat_eq_div]; norm_num]
  decide

/-- C6 counterexample: the scratch path is `f"/tmp/{request.fileName}"`, so
two distinct jobs whose uploads share a file name compute the same scratch
path, refuting per-job uniqueness. -/
theorem tempPath_collision :
    tempPath reqSameName1 = tempPath reqSameName2 ∧ reqSameName1 ≠ reqSameName2 := by
  decide

/-- C6 (amended): the scratch path is derived from the file name alone, not
from the job id: two ingestion requests compute the same scratch path
exactly when their `fileName` values coincide, so same-named uploads
collide and distinct file names give distinct paths. -/
theorem tempPath_eq_iff (r1 r2 : ProcessRequest) :
    tempPath r1 = tempPath r2 ↔ r1.fileName = r2.fileName := by
  unfold tempPath
  constructor
  · intro h
    have h2 : ("/tmp/" ++ r1.fileName).data = ("/tmp/" ++ r2.fileName).data := by rw [h]
    simp only [String.data_append] at h2
    exact String.ext (List.append_cancel_left h2)
  · intro h
    rw [h]

/-- C3: reconciliation is idempotent. On any store satisfying the
reachable-state invariant that records never outlive their task, deleting a
task twice gives no error (the model is total; the second call is a literal
no-op), leaves no published record with that provenance, and removes the
task document. -/
theorem delete_idempotent (s : Store) (req : DeleteRequest)
    (h : orphanFree s req.taskId) :
    delete_file_task (delete_file_task s req) req = delete_file_task s req ∧
    noProv (delete_file_task s req).appData req.taskId ∧
    lookupTask (delete_file_task s req).tasks req.taskId = none := by
  cases hl : lookupTask s.tasks req.taskId with
  | none =>
      refine ⟨?_, ?_, ?_⟩
      · simp [delete_file_task, hl]
      · simpa [delete_file_task, hl] using h hl
      · simp [delete_file_task, hl]
  | some t =>
      have hs1 : delete_file_task s req
          = { tasks := removeTask s.tasks req.taskId
              appData := deleteRecords s.appData req.taskId } := by
        simp [delete_file_task, hl]
      refine ⟨?_, ?_, ?_⟩
      · rw [hs1]; simp [delete_file_task, lookupTask_removeTask]
      · rw [hs1]; exact noProv_deleteRecords _ _
      · rw [hs1]; exact lookupTask_removeTask _ _

/-- Witness for C3 at a concrete store: one task with two provenanced
records plus one foreign record. -/
theorem delete_idempotent_witness :
    orphanFree storeW "T1" ∧
    (delete_file_task (delete_file_task storeW ⟨"T1", "alice"⟩) ⟨"T1", "alice"⟩
        = delete_file_task storeW ⟨"T1", "alice"⟩ ∧
      noProv (delete_file_task storeW ⟨"T1", "alice"⟩).appData "T1" ∧
      lookupTask (delete_file_task storeW ⟨"T1", "alice"⟩).tasks "T1" = none) :=
  ⟨by decide, delete_idempotent storeW ⟨"T1", "alice"⟩ (by decide)⟩

theorem lookupTask_pushRecords (s : Store) (recs : List PublishedRecord) (id : String) :
    lookupTask (pushRecords s recs).tasks id = lookupTask s.tasks id := rfl

theorem errorFinish_spec (env : IngestEnv) (m : Mid) (msg : String) (t : ProcessingTask)
    (he : env.errUpdateOk = true) (hl : lookupTask m.store.tasks env.taskId = some t) :
    errorFinish env m msg
      = { store := setTask m.store env.taskId
            { t with status := "error", errorMessage := some msg }
          escaped := false, published := m.published
          events := m.events ++ ["error"], scratchExists := cleanupFile m.scratch } := by
  simp [errorFinish, hl, he]

theorem run_happy (env : IngestEnv) (req : ProcessRequest) (s0 : Store)
    (raw processed : List Row)
    (hc : env.createOk = true) (hf : env.fetchOk = true)
    (hp : env.parseResult = .ok raw)
    (ht : SpreadsheetLogic.process raw req.category = .ok processed)
    (hpub : env.publishOk = true) (hco : env.completeOk = true) :
    runProcessFileTask env req s0 =
      { store := setTask
          (pushRecords (setTask s0 env.taskId (mkTaskData req))
            ((processed.take 400).map (fun item => mkPublished item env.taskId req)))
          env.taskId
          { mkTaskData req with status := "completed"
                                recordCount := some processed.length
                                notificationSent := true }
        escaped := false
        published := (processed.take 400).map (fun item => mkPublished item env.taskId req)
        events := ["processing", "completed",
                   if env.notifyOk then "notify" else "notify_failed"]
        scratchExists := false } := by
  simp [runProcessFileTask, hc, hf, hp, ht, hpub, hco, okFinish, cleanupFile,
        lookupTask_pushRecords, lookupTask_setTask]

/-- C2: whenever the task document is created and the store accepts the
error-path update, the run never escapes with an exception, the final task
status is exactly `completed` or `error` (never `processing`), and the
status trail the run wrote is monotone: `processing` followed by exactly
one terminal status, whichever of fetch, parse, transform, publish or the
completion update fails. -/
theorem status_terminal (env : IngestEnv) (req : ProcessRequest) (s0 : Store)
    (hc : env.createOk = true) (he : env.errUpdateOk = true) :
    (runProcessFileTask env req s0).escaped = false ∧
    (taskStatus (runProcessFileTask env req s0).store env.taskId = some "completed" ∨
      taskStatus (runProcessFileTask env req s0).store env.taskId = some "error") ∧
    (statusEvents (runProcessFileTask env req s0).events = ["processing", "completed"] ∨
      statusEvents (runProcessFileTask env req s0).events = ["processing", "error"]) := by
  cases hfetch : env.fetchOk with
  | false =>
      have hrun : runProcessFileTask env req s0
          = errorFinish env
              ⟨setTask s0 env.taskId (mkTaskData req), [], ["processing"], env.fetchLeft⟩
              env.fetchErr := by
        simp [runProcessFileTask, hc, hfetch]
      rw [hrun, errorFinish_spec env _ _ (mkTaskData req) he (lookupTask_setTask _ _ _)]
      exact ⟨rfl, Or.inr (by simp [taskStatus, lookupTask_setTask]), Or.inr rfl⟩
  | true =>
      cases hparse : env.parseResult with
      | error e =>
          have hrun : runProcessFileTask env req s0
              = errorFinish env
                  ⟨setTask s0 env.taskId (mkTaskData req), [], ["processing"], true⟩ e := by
            simp [runProcessFileTask, hc, hfetch, hparse]
          rw [hrun, errorFinish_spec env _ _ (mkTaskData req) he (lookupTask_setTask _ _ _)]
          exact ⟨rfl, Or.inr (by simp [taskStatus, lookupTask_setTask]), Or.inr rfl⟩
      | ok raw =>
          cases hproc : SpreadsheetLogic.process raw req.category with
          | error e =>
              have hrun : runProcessFileTask env req s0
                  = errorFinish env
                      ⟨setTask s0 env.taskId (mkTaskData req), [], ["processing"], true⟩ e := by
                simp [runProcessFileTask, hc, hfetch, hparse, hproc]
              rw [hrun, errorFinish_spec env _ _ (mkTaskData req) he (lookupTask_setTask _ _ _)]
              exact ⟨rfl, Or.inr (by simp [taskStatus, lookupTask_setTask]), Or.inr rfl⟩
          | ok processed =>
              cases hpub : env.publishOk with
              | false =>
                  have hrun : runProcessFileTask env req s0
                      = errorFinish env
                          ⟨setTask s0 env.taskId (mkTaskData req), [], ["processing"], true⟩
                          env.publishErr := by
                    simp [runProcessFileTask, hc, hfetch, hparse, hproc, hpub]
                  rw [hrun,
                      errorFinish_spec env _ _ (mkTaskData req) he (lookupTask_setTask _ _ _)]
                  exact ⟨rfl, Or.inr (by simp [taskStatus, lookupTask_setTask]), Or.inr rfl⟩
              | true =>
                  cases hco : env.completeOk with
                  | false =>
                      have hrun : runProcessFileTask env req s0
                          = errorFinish env
                              ⟨pushRecords (setTask s0 env.taskId (mkTaskData req))
                                  ((processed.take 400).map
                                    (fun item => mkPublished item env.taskId req)),
                                (processed.take 400).map
                                  (fun item => mkPublished item env.taskId req),
                                ["processing"], true⟩
                              env.completeErr := by
                        simp [runProcessFileTask, hc, hfetch, hparse, hproc, hpub, hco]
                      rw [hrun, errorFinish_spec env
                            ⟨pushRecords (setTask s0 env.taskId (mkTaskData req))
                                ((processed.take 400).map
                                  (fun item => mkPublished item env.taskId req)),
                              (processed.take 400).map
                                (fun item => mkPublished item env.taskId req),
                              ["processing"], true⟩
                            env.completeErr (mkTaskData req) he
                            ((lookupTask_pushRecords (setTask s0 env.taskId (mkTaskData req))
                                ((processed.take 400).map
                                  (fun item => mkPublished item env.taskId req))
                                env.taskId).trans (lookupTask_setTask _ _ _))]
                      exact ⟨rfl, Or.inr (by simp [taskStatus, lookupTask_setTask]), Or.inr rfl⟩
                  | true =>
                      rw [run_happy env req s0 raw processed hc hfetch hparse hproc hpub hco]
                      refine ⟨rfl, Or.inl (by simp [taskStatus, lookupTask_setTask]),
                              Or.inl ?_⟩
                      cases hn : env.notifyOk <;> rfl

/-- Witness for C2: a concrete happy-path run ends `completed` with the
monotone status trail. -/
theorem status_terminal_witness :
    (envHappy.createOk = true ∧ envHappy.errUpdateOk = true) ∧
    ((runProcessFileTask envHappy reqFin ⟨[], []⟩).escaped = false ∧
      (taskStatus (runProcessFileTask envHappy reqFin ⟨[], []⟩).store envHappy.taskId
          = some "completed" ∨
        taskStatus (runProcessFileTask envHappy reqFin ⟨[], []⟩).store envHappy.taskId
          = some "error") ∧
      (statusEvents (runProcessFileTask envHappy reqFin ⟨[], []⟩).events
          = ["processing", "completed"] ∨
        statusEvents (runProcessFileTask envHappy reqFin ⟨[], []⟩).events
          = ["processing", "error"])) :=
  ⟨⟨rfl, rfl⟩, status_terminal envHappy reqFin ⟨[], []⟩ rfl rfl⟩

/-- C7: if the blob download raises after the task document was created (and
the store accepts the error update), the run swallows the exception, the
task ends in status `error` carrying the stringified fetch error (non-empty
whenever the exception text is), no published record is created (`app_data`
is untouched), and the `finally` cleanup still removes the scratch file. -/
theorem fetch_fail_cleanup (env : IngestEnv) (req : ProcessRequest) (s0 : Store)
    (hc : env.createOk = true) (hfetch : env.fetchOk = false)
    (he : env.errUpdateOk = true) (hm : env.fetchErr ≠ "") :
    (runProcessFileTask env req s0).escaped = false ∧
    taskStatus (runProcessFileTask env req s0).store env.taskId = some "error" ∧
    taskErrMsg (runProcessFileTask env req s0).store env.taskId = some env.fetchErr ∧
    taskErrMsg (runProcessFileTask env req s0).store env.taskId ≠ some "" ∧
    (runProcessFileTask env req s0).published = [] ∧
    (runProcessFileTask env req s0).store.appData = s0.appData ∧
    (runProcessFileTask env req s0).scratchExists = false := by
  have hrun : runProcessFileTask env req s0
      = errorFinish env
          ⟨setTask s0 env.taskId (mkTaskData req), [], ["processing"], env.fetchLeft⟩
          env.fetchErr := by
    simp [runProcessFileTask, hc, hfetch]
  rw [hrun, errorFinish_spec env _ _ (mkTaskData req) he (lookupTask_setTask _ _ _)]
  refine ⟨rfl, ?_, ?_, ?_, rfl, rfl, cleanupFile_eq_false _⟩
  · simp [taskStatus, lookupTask_setTask]
  · simp [taskErrMsg, lookupTask_setTask]
  · simp [taskErrMsg, lookupTask_setTask, hm]

/-- Witness for C7: a concrete run whose download raises `404 blob not
found`, leaving a leftover scratch file that the cleanup removes. -/
theorem fetch_fail_cleanup_witness :
    (envFetchFail.createOk = true ∧ envFetchFail.fetchOk = false ∧
      envFetchFail.errUpdateOk = true ∧ envFetchFail.fetchErr ≠ "") ∧
    ((runProcessFileTask envFetchFail reqFin ⟨[], []⟩).escaped = false ∧
      taskStatus (runProcessFileTask envFetchFail reqFin ⟨[], []⟩).store envFetchFail.taskId
        = some "error" ∧
      taskErrMsg (runProcessFileTask envFetchFail reqFin ⟨[], []⟩).store envFetchFail.taskId
        = some envFetchFail.fetchErr ∧
      taskErrMsg (runProcessFileTask envFetchFail reqFin ⟨[], []⟩).store envFetchFail.taskId
        ≠ some "" ∧
      (runProcessFileTask envFetchFail reqFin ⟨[], []⟩).published = [] ∧
      (runProcessFileTask envFetchFail reqFin ⟨[], []⟩).store.appData
        = (⟨[], []⟩ : Store).appData ∧
      (runProcessFileTask envFetchFail reqFin ⟨[], []⟩).scratchExists = false) :=
  ⟨⟨rfl, rfl, rfl, by decide⟩,
    fetch_fail_cleanup envFetchFail reqFin ⟨[], []⟩ rfl rfl rfl (by decide)⟩

/-- C8: notification failure never changes the recorded outcome. On any run
that reaches completion, the final store is identical whether or not the
push send raises, the task is already `completed` with `recordCount` set
and the notification-sent flag `true`, and the event trail shows the
`completed` update strictly before the notification attempt. -/
theorem notify_swallowed (env : IngestEnv) (req : ProcessRequest) (s0 : Store)
    (raw processed : List Row)
    (hc : env.createOk = true) (hf : env.fetchOk = true)
    (hp : env.parseResult = .ok raw)
    (ht : SpreadsheetLogic.process raw req.category = .ok processed)
    (hpub : env.publishOk = true) (hco : env.completeOk = true) :
    (runProcessFileTask env req s0).store
        = (runProcessFileTask { env with notifyOk := true } req s0).store ∧
    (runProcessFileTask env req s0).escaped = false ∧
    taskStatus (runProcessFileTask env req s0).store env.taskId = some "completed" ∧
    taskNotifSent (runProcessFileTask env req s0).store env.taskId = some true ∧
    taskRecordCount (runProcessFileTask env req s0).store env.taskId
        = some processed.length ∧
    (runProcessFileTask env req s0).events
        = ["processing", "completed",
           if env.notifyOk then "notify" else "notify_failed"] := by
  rw [run_happy env req s0 raw processed hc hf hp ht hpub hco,
      run_happy { env with notifyOk := true } req s0 raw processed hc hf hp ht hpub hco]
  refine ⟨rfl, rfl, ?_, ?_, ?_, rfl⟩
  · simp [taskStatus, lookupTask_setTask]
  · simp [taskNotifSent, lookupTask_setTask]
  · simp [taskRecordCount, lookupTask_setTask]

/-- Witness for C8: a concrete run whose push send raises; the store equals
the one of the successful-notification run and the task stays `completed`. -/
theorem notify_swallowed_witness :
    (envNotifyFail.createOk = true ∧ envNotifyFail.fetchOk = true ∧
      envNotifyFail.parseResult
        = .ok [[("Amount", Val.str "12.5")], [("Amount", Val.str "bad")]] ∧
      SpreadsheetLogic.process
          [[("Amount", Val.str "12.5")], [("Amount", Val.str "bad")]] reqFin.category
        = .ok [[("amount", Val.num (mkRat 25 2))], [("amount", Val.num (mkRat 0 1))]] ∧
      envNotifyFail.publishOk = true ∧ envNotifyFail.completeOk = true) ∧
    ((runProcessFileTask envNotifyFail reqFin ⟨[], []⟩).store
        = (runProcessFileTask { envNotifyFail with notifyOk := true } reqFin ⟨[], []⟩).store ∧
      (runProcessFileTask envNotifyFail reqFin ⟨[], []⟩).escaped = false ∧
      taskStatus (runProcessFileTask envNotifyFail reqFin ⟨[], []⟩).store envNotifyFail.taskId
        = some "completed" ∧
      taskNotifSent (runProcessFileTask envNotifyFail reqFin ⟨[], []⟩).store envNotifyFail.taskId
        = some true ∧
      taskRecordCount (runProcessFileTask envNotifyFail reqFin ⟨[], []⟩).store envNotifyFail.taskId
        = some ([[("amount", Val.num (mkRat 25 2))], [("amount", Val.num (mkRat 0 1))]]
            : List Row).length ∧
      (runProcessFileTask envNotifyFail reqFin ⟨[], []⟩).events
        = ["processing", "completed",
           if envNotifyFail.notifyOk then "notify" else "notify_failed"]) :=
  ⟨⟨rfl, rfl, rfl, by decide, rfl, rfl⟩,
    notify_swallowed envNotifyFail reqFin ⟨[], []⟩
      [[("Amount", Val.str "12.5")], [("Amount", Val.str "bad")]]
      [[("amount", Val.num (mkRat 25 2))], [("amount", Val.num (mkRat 0 1))]]
      rfl rfl rfl (by decide) rfl rfl⟩

/-- C1 (amended): on every successful ingestion each published record's
provenance equals the task id and publishing appends exactly those records,
but the Bulk Publisher truncates to the first 400 transformed rows while
`recordCount` records the full transformed length: the published count is
`min 400 recordCount`, which equals `recordCount` only when at most 400
rows were transformed. -/
theorem publish_provenance_count (env : IngestEnv) (req : ProcessRequest) (s0 : Store)
    (raw processed : List Row)
    (hc : env.createOk = true) (hf : env.fetchOk = true)
    (hp : env.parseResult = .ok raw)
    (ht : SpreadsheetLogic.process raw req.category = .ok processed)
    (hpub : env.publishOk = true) (hco : env.completeOk = true) :
    taskStatus (runProcessFileTask env req s0).store env.taskId = some "completed" ∧
    provOk (runProcessFileTask env req s0).published env.taskId ∧
    (runProcessFileTask env req s0).published.length = min 400 processed.length ∧
    taskRecordCount (runProcessFileTask env req s0).store env.taskId
        = some processed.length ∧
    (runProcessFileTask env req s0).store.appData
        = s0.appData ++ (runProcessFileTask env req s0).published := by
  rw [run_happy env req s0 raw processed hc hf hp ht hpub hco]
  refine ⟨?_, ?_, ?_, ?_, rfl⟩
  · simp [taskStatus, lookupTask_setTask]
  · intro rec hrec
    rcases List.mem_map.mp hrec with ⟨item, _, rfl⟩
    rfl
  · simp
  · simp [taskRecordCount, lookupTask_setTask]

/-- Witness for C1 (amended): the concrete happy-path run publishes both
transformed rows with provenance `T1` and records `recordCount = 2`. -/
theorem publish_provenance_count_witness :
    (envHappy.createOk = true ∧ envHappy.fetchOk = true ∧
      envHappy.parseResult
        = .ok [[("Amount", Val.str "12.5")], [("Amount", Val.str "bad")]] ∧
      SpreadsheetLogic.process
          [[("Amount", Val.str "12.5")], [("Amount", Val.str "bad")]] reqFin.category
        = .ok [[("amount", Val.num (mkRat 25 2))], [("amount", Val.num (mkRat 0 1))]] ∧
      envHappy.publishOk = true ∧ envHappy.completeOk = true) ∧
    (taskStatus (runProcessFileTask envHappy reqFin ⟨[], []⟩).store envHappy.taskId
        = some "completed" ∧
      provOk (runProcessFileTask envHappy reqFin ⟨[], []⟩).published envHappy.taskId ∧
      (runProcessFileTask envHappy reqFin ⟨[], []⟩).published.length = min 400 2 ∧
      taskRecordCount (runProcessFileTask envHappy reqFin ⟨[], []⟩).store envHappy.taskId
        = some 2 ∧
      (runProcessFileTask envHappy reqFin ⟨[], []⟩).store.appData
        = (⟨[], []⟩ : Store).appData ++ (runProcessFileTask envHappy reqFin ⟨[], []⟩).published) :=
  ⟨⟨rfl, rfl, rfl, by decide, rfl, rfl⟩,
    publish_provenance_count envHappy reqFin ⟨[], []⟩
      [[("Amount", Val.str "12.5")], [("Amount", Val.str "bad")]]
      [[("amount", Val.num (mkRat 25 2))], [("amount", Val.num (mkRat 0 1))]]
      rfl rfl rfl (by decide) rfl rfl⟩

/-- C1 counterexample: a successful ingestion of 401 transformed rows
publishes only 400 records while the task records `recordCount = 401`, so
the number actually published does not equal the recorded `recordCount`. -/
theorem collectKeys_replicate_single (n : Nat) (v : Val) :
    collectKeys (List.replicate (n + 1) [("a", v)]) = ["a"] := by
  have haux : ∀ m, List.foldl (fun acc r => r.foldl (fun a kv => insertKey a kv.1) acc)
      ["a"] (List.replicate m [("a", v)]) = ["a"] := by
    intro m
    induction m with
    | zero => rfl
    | succ p ih => simpa [List.replicate_succ, insertKey] using ih
  rw [collectKeys, List.replicate_succ, List.foldl_cons]
  simpa [insertKey] using haux n

theorem process_replicate_single (n : Nat) :
    SpreadsheetLogic.process (List.replicate (n + 1) [("a", Val.str "x")]) "other"
      = .ok (List.replicate (n + 1) [("a", Val.str "x")]) := by
  have hck := collectKeys_replicate_single n (Val.str "x")
  have hframe : mkFrame (List.replicate (n + 1) [("a", Val.str "x")])
      = { colIx := .names ["a"], rows := List.replicate (n + 1) [Val.str "x"] } := by
    simp [mkFrame, hck, List.map_replicate, List.lookup]
  have hna : normalizeHeader "a" = "a" := by decide
  rw [SpreadsheetLogic.process, hframe]
  simp only [SpreadsheetLogic.clean_headers, List.map_cons, List.map_nil, hna]
  rw [SpreadsheetLogic.apply_business_rules]
  simp only [List.map_replicate]
  rw [if_neg (by decide : ¬ ("other" : String) = "financial"),
      if_neg (by decide : ¬ ("other" : String) = "inventory")]
  simp [SpreadsheetLogic.toRecords, List.map_replicate, fillVal]

/-- C1 counterexample: a successful ingestion of 401 transformed rows
publishes only 400 records while the task records `recordCount = 401`, so
the number actually published does not equal the recorded `recordCount`. -/
theorem publish_truncation_cex :
    taskStatus (runProcessFileTask envBig reqBig ⟨[], []⟩).store envBig.taskId
      = some "completed" ∧
    taskRecordCount (runProcessFileTask envBig reqBig ⟨[], []⟩).store envBig.taskId
      = some 401 ∧
    (runProcessFileTask envBig reqBig ⟨[], []⟩).published.length = 400 ∧
    ¬ ((runProcessFileTask envBig reqBig ⟨[], []⟩).published.length = 401) := by
  rw [run_happy envBig reqBig ⟨[], []⟩
        (List.replicate 401 [("a", Val.str "x")])
        (List.replicate 401 [("a", Val.str "x")])
        rfl rfl rfl (process_replicate_single 400) rfl rfl]
  refine ⟨?_, ?_, ?_, ?_⟩
  · unfold taskStatus
    rw [lookupTask_setTask]
    rfl
  · unfold taskRecordCount
    rw [lookupTask_setTask]
    show some (List.replicate 401 ([("a", Val.str "x")] : Row)).length = some 401
    rw [List.length_replicate]
  · rw [List.length_map, List.length_take, List.length_replicate]
    decide
  · rw [List.length_map, List.length_take, List.length_replicate]
    decide

theorem zip_map_self_append (l : List (List Val)) (g : List Val → Val) :
    (l.zip (l.map g)).map (fun p => p.1 ++ [p.2]) = l.map (fun row => row ++ [g row]) := by
  induction l with
  | nil => rfl
  | cons a t ih => simp [ih]

theorem lookup_append_right_of_not_mem (k : String) (l1 l2 : List (String × Val))
    (h : k ∉ l1.map Prod.fst) : (l1 ++ l2).lookup k = l2.lookup k := by
  induction l1 with
  | nil => rfl
  | cons p t ih =>
      simp only [List.map_cons, List.mem_cons] at h
      push_neg at h
      obtain ⟨h1, h2⟩ := h
      have hb : (k == p.1) = false := beq_eq_false_iff_ne.mpr h1
      simp [List.lookup, hb, ih h2]

theorem getD_map_lt {α β : Type} (l : List α) (f : α → β) (j : Nat) (hj : j < l.length)
    (d : β) (d' : α) : (l.map f).getD j d = f (l.getD j d') := by
  rw [List.getD_eq_getElem _ _ (by simpa using hj), List.getD_eq_getElem _ _ hj,
      List.getElem_map]



theorem mkFrame_names (raw : List Row) (h : collectKeys raw ≠ []) :
    mkFrame raw
      = { colIx := .names (collectKeys raw)
          rows := raw.map (fun r =>
            (collectKeys raw).map (fun k => (r.lookup k).getD .nan)) } := by
  simp [mkFrame, h]

theorem apply_rules_inventory (cs : List String) (R : List (List Val))
    (hstock : "stock" ∈ cs) (hla : "low_stock_alert" ∉ cs) :
    SpreadsheetLogic.apply_business_rules { colIx := .names cs, rows := R } "inventory"
      = { colIx := .names (cs ++ ["low_stock_alert"])
          rows := R.map (fun row => (row.map fillVal)
            ++ [Val.bool (lowStock ((row.map fillVal).getD
                  (cs.findIdx (· = "stock")) Val.nan))]) } := by
  show (if ("inventory" : String) = "financial" then
          if "amount" ∈ cs then
            SpreadsheetLogic.mapColAt
              (⟨.names cs, R.map (fun row => row.map fillVal)⟩ : Frame)
              (cs.findIdx (· = "amount")) coerceAmount
          else (⟨.names cs, R.map (fun row => row.map fillVal)⟩ : Frame)
        else if ("inventory" : String) = "inventory" then
          if "stock" ∈ cs then
            (if "low_stock_alert" ∈ cs then
              { (⟨.names cs, R.map (fun row => row.map fillVal)⟩ : Frame) with
                rows := ((R.map (fun row => row.map fillVal)).zip
                    ((R.map (fun row => row.map fillVal)).map
                      (fun row => Val.bool (lowStock
                        (row.getD (cs.findIdx (· = "stock")) Val.nan))))).map
                  (fun p => p.1.set (cs.findIdx (· = "low_stock_alert")) p.2) }
            else
              { colIx := ColIndex.names (cs ++ ["low_stock_alert"])
                rows := ((R.map (fun row => row.map fillVal)).zip
                    ((R.map (fun row => row.map fillVal)).map
                      (fun row => Val.bool (lowStock
                        (row.getD (cs.findIdx (· = "stock")) Val.nan))))).map
                  (fun p => p.1 ++ [p.2]) })
          else (⟨.names cs, R.map (fun row => row.map fillVal)⟩ : Frame)
        else (⟨.names cs, R.map (fun row => row.map fillVal)⟩ : Frame)) = _
  rw [if_neg (by decide : ¬ ("inventory" : String) = "financial"),
      if_pos (rfl : ("inventory" : String) = "inventory"),
      if_pos hstock, if_neg hla, zip_map_self_append, List.map_map]
  rfl

theorem process_inventory_eval (raw : List Row)
    (hstock : "stock" ∈ (collectKeys raw).map normalizeHeader)
    (hla : "low_stock_alert" ∉ (collectKeys raw).map normalizeHeader) :
    SpreadsheetLogic.process raw "inventory"
      = .ok (raw.map (fun r =>
          ((collectKeys raw).map normalizeHeader ++ ["low_stock_alert"]).zip
            ((((collectKeys raw).map (fun k => (r.lookup k).getD .nan)).map fillVal)
              ++ [Val.bool (lowStock
                  ((((collectKeys raw).map (fun k => (r.lookup k).getD .nan)).map
                      fillVal).getD (stockIdx raw) Val.nan))]))) := by
  have hksne : collectKeys raw ≠ [] := by
    intro h
    rw [h] at hstock
    simp at hstock
  rw [SpreadsheetLogic.process, mkFrame_names raw hksne]
  show Except.ok (SpreadsheetLogic.toRecords (SpreadsheetLogic.apply_business_rules
      ⟨.names ((collectKeys raw).map normalizeHeader),
        raw.map (fun r => (collectKeys raw).map (fun k => (r.lookup k).getD .nan))⟩
      "inventory")) = _
  rw [apply_rules_inventory _ _ hstock hla]
  show Except.ok
      (((raw.map (fun r => (collectKeys raw).map (fun k => (r.lookup k).getD .nan))).map
          (fun row => (row.map fillVal)
            ++ [Val.bool (lowStock ((row.map fillVal).getD
                  (((collectKeys raw).map normalizeHeader).findIdx (· = "stock"))
                  Val.nan))])).map
        (fun row => ((collectKeys raw).map normalizeHeader ++ ["low_stock_alert"]).zip row))
      = _
  rw [List.map_map, List.map_map]
  rfl

/-- C5: on every row set whose cleaned headers contain `stock` (and do not
already contain the derived field), the inventory rule appends a boolean
`low_stock_alert` to every row, computed from that row's filled `stock`
cell, and the alert is `true` exactly when the cell coerces to a number
below 10 — in particular a value that fails numeric coercion gives
`false`. -/
theorem inventory_low_stock (raw rs : List Row)
    (hstock : "stock" ∈ (collectKeys raw).map normalizeHeader)
    (hla : "low_stock_alert" ∉ (collectKeys raw).map normalizeHeader)
    (hrun : SpreadsheetLogic.process raw "inventory" = .ok rs) :
    rs.length = raw.length ∧
    (∀ i (hi : i < rs.length),
        (rs.get ⟨i, hi⟩).lookup "low_stock_alert"
          = some (Val.bool (lowStock (stockCell raw i)))) ∧
    (∀ v, lowStock v = true ↔ ∃ q, toNumericVal v = Val.num q ∧ q < 10) := by
  have hksne : collectKeys raw ≠ [] := by
    intro h
    rw [h] at hstock
    simp at hstock
  rw [process_inventory_eval raw hstock hla] at hrun
  have hrs := Except.ok.inj hrun
  subst hrs
  have hlenks : ((collectKeys raw).map normalizeHeader).length = (collectKeys raw).length :=
    List.length_map _ _
  have hj : stockIdx raw < (collectKeys raw).length := by
    rw [← hlenks]
    exact List.findIdx_lt_length_of_exists ⟨"stock", hstock, by simp⟩
  refine ⟨List.length_map _ _, ?_, ?_⟩
  · intro i hi
    have hi' : i < raw.length := by simpa using hi
    rw [List.get_eq_getElem, List.getElem_map]
    dsimp only
    have hlenrow : ((collectKeys raw).map normalizeHeader).length
        = (((collectKeys raw).map (fun k => ((raw[i]).lookup k).getD Val.nan)).map
            fillVal).length := by
      simp
    rw [List.zip_append hlenrow]
    rw [lookup_append_right_of_not_mem _ _ _
          (by rw [List.map_fst_zip _ _ (le_of_eq hlenrow)]; exact hla)]
    have hcell : (((collectKeys raw).map (fun k => ((raw[i]).lookup k).getD Val.nan)).map
          fillVal).getD (stockIdx raw) Val.nan = stockCell raw i := by
      rw [stockCell, mkFrame_names raw hksne]
      dsimp only
      rw [getD_map_lt raw _ i hi' ([] : List Val) ([] : Row)]
      rw [getD_map_lt _ fillVal (stockIdx raw) (by simpa using hj) Val.nan Val.nan]
      rw [List.getD_eq_getElem _ _ hi']
    rw [hcell]
    rfl
  · intro v
    cases hv : toNumericVal v with
    | num q =>
        rw [lowStock, hv]
        constructor
        · intro hq
          exact ⟨q, rfl, (ratLt10_iff q).mp hq⟩
        · rintro ⟨q', hq', hlt⟩
          cases hq'
          exact (ratLt10_iff q).mpr hlt
    | str s => rw [lowStock, hv]; simp
    | bool b => rw [lowStock, hv]; simp
    | nan => rw [lowStock, hv]; simp

/-- Witness for C5 at the claim's rows: stock `"3"` gives alert `true`,
stock `"50"` gives alert `false`. -/
theorem inventory_low_stock_witness :
    ("stock" ∈ (collectKeys rawInv).map normalizeHeader ∧
      "low_stock_alert" ∉ (collectKeys rawInv).map normalizeHeader ∧
      SpreadsheetLogic.process rawInv "inventory" = .ok rsInv) ∧
    (rsInv.length = rawInv.length ∧
      (rsInv.get ⟨0, by decide⟩).lookup "low_stock_alert" = some (Val.bool true) ∧
      (rsInv.get ⟨1, by decide⟩).lookup "low_stock_alert" = some (Val.bool false) ∧
      (lowStock (Val.str "3") = true ↔
        ∃ q, toNumericVal (Val.str "3") = Val.num q ∧ q < 10)) := by
  have h := inventory_low_stock rawInv rsInv (by decide) (by decide) (by decide)
  refine ⟨⟨by decide, by decide, by decide⟩, h.1, ?_, ?_, h.2.2 (Val.str "3")⟩
  · rw [h.2.1 0 (by decide)]
    decide
  · rw [h.2.1 1 (by decide)]
    decide
